import Mathlib

/-!
Shallow embedding of the resilience and caching core of the pokedex
repository: the exponential-backoff retry utility
(`src/infrastructure/repository/util/exponential-backoff.util.ts`),
the fault-tolerant cache wrapper
(`src/infrastructure/cache/cache-wrapper.service.ts`),
the two cache-aside lookup services
(`PokemonRepository.getPokemonSpecies`, `TranslationRepository.translate`)
and the description extraction of `PokemonService`.

Asynchronous operations are embedded as pure functions from the
0-indexed invocation number to an `Except` value; a thrown JavaScript
error is an `Except.error`.  Each stateful method is embedded as a
function returning a trace recording its result, the number of upstream
invocations it performed, the delays it waited, and the cache writes it
attempted.
-/

namespace Pokedex

/-- Errors seen by the retry logic.  `http status` embeds an
`AxiosError` carrying a response with the given HTTP status code;
`network` embeds an `AxiosError` without a response (connectivity
failure); `other` embeds any non-Axios error value. -/
inductive UpstreamError where
  | http (status : Nat)
  | network
  | other
deriving DecidableEq, Repr

/-- Embedding of `shouldRetry`: true only for an `AxiosError` with a
response whose status is 429 or satisfies `500 <= status && status < 600`. -/
def shouldRetry : UpstreamError → Bool
  | UpstreamError.http status => status == 429 || (decide (500 ≤ status) && decide (status < 600))
  | UpstreamError.network => false
  | UpstreamError.other => false

/-- Embedding of `calculateDelay`: `min(baseDelay * 2^attempt, maxDelay)`. -/
def calculateDelay (attempt baseDelay maxDelay : Nat) : Nat :=
  min (baseDelay * 2 ^ attempt) maxDelay

/-- Trace of one `withExponentialBackoff` run: its outcome (the error
component is the thrown value; `Except.error none` embeds throwing the
never-assigned `lastError` when the loop body never ran), the number of
times the wrapped operation was invoked, and the list of delays waited. -/
structure BackoffTrace (α : Type) where
  result : Except (Option UpstreamError) α
  invocations : Nat
  delays : List Nat
deriving Repr

/-- The `for (let attempt = 0; attempt < maxAttempts; attempt++)` loop of
`withExponentialBackoff`, with `remaining = maxAttempts - attempt` loop
iterations left.  On success return the value; on a non-retryable error
rethrow it; on a retryable error record the computed delay unless this is
the last attempt (`attempt < maxAttempts - 1` iff `remaining ≠ 0` after
the current iteration) and continue; when the loop ends, throw `lastError`. -/
def backoffLoop (fn : Nat → Except UpstreamError α) (baseDelay maxDelay : Nat) :
    Nat → Nat → Option UpstreamError → BackoffTrace α
  | 0, _, lastError => ⟨Except.error lastError, 0, []⟩
  | remaining + 1, attempt, _ =>
    match fn attempt with
    | Except.ok v => ⟨Except.ok v, 1, []⟩
    | Except.error e =>
      if shouldRetry e then
        let rest := backoffLoop fn baseDelay maxDelay remaining (attempt + 1) (some e)
        if remaining = 0 then
          ⟨rest.result, rest.invocations + 1, rest.delays⟩
        else
          ⟨rest.result, rest.invocations + 1,
            calculateDelay attempt baseDelay maxDelay :: rest.delays⟩
      else
        ⟨Except.error (some e), 1, []⟩

/-- Embedding of `withExponentialBackoff fn {maxAttempts, baseDelay, maxDelay}`. -/
def withExponentialBackoff (fn : Nat → Except UpstreamError α)
    (maxAttempts baseDelay maxDelay : Nat) : BackoffTrace α :=
  backoffLoop fn baseDelay maxDelay maxAttempts 0 none

/-- A failure of the underlying cache store (the rejection of a
`cacheManager.get`/`set` promise), carrying its message. -/
inductive CacheErr where
  | failure (msg : String)
deriving DecidableEq, Repr

/-- Result of `CacheWrapperService.get`: the returned value (never a
thrown error — the method catches everything) and whether a warning was
logged. -/
structure CacheGetTrace (α : Type) where
  value : Option α
  warned : Bool
deriving Repr

/-- Embedding of `CacheWrapperService.get`, as a function of the
underlying store call's outcome: on success return `cached ?? null`; on
a store failure log a warning and return `null`. -/
def cacheWrapperGet (store : Except CacheErr (Option α)) : CacheGetTrace α :=
  match store with
  | Except.ok cached => ⟨cached, false⟩
  | Except.error _ => ⟨none, true⟩

/-- Result of `CacheWrapperService.set`: the method returns no value and
never throws; the trace records only whether a warning was logged. -/
structure CacheSetTrace where
  warned : Bool
deriving DecidableEq, Repr

/-- Embedding of `CacheWrapperService.set`, as a function of the
underlying store write outcome for the given value and ttl: on a store
failure log a warning and return normally. -/
def cacheWrapperSet (store : α → Nat → Except CacheErr Unit) (value : α) (ttl : Nat) :
    CacheSetTrace :=
  match store value ttl with
  | Except.ok _ => ⟨false⟩
  | Except.error _ => ⟨true⟩

/-! ### SHA-256 (Node `crypto`, `createHash('sha256').update(text).digest('hex')`)

The external `crypto` library is embedded by the standard SHA-256
algorithm (FIPS 180-4) over the UTF-8 bytes of the input string, with
32-bit words represented as `Nat` reduced modulo `2 ^ 32`. -/

/-- Reduce to a 32-bit word. -/
def w32 (n : Nat) : Nat := n % 4294967296

/-- Right rotation of a 32-bit word. -/
def rotr32 (k x : Nat) : Nat := w32 ((x >>> k) ||| (x <<< (32 - k)))

/-- UTF-8 encoding of a Unicode code point. -/
def utf8EncodeCharNat (n : Nat) : List Nat :=
  if n < 128 then [n]
  else if n < 2048 then [192 ||| (n >>> 6), 128 ||| (n &&& 63)]
  else if n < 65536 then
    [224 ||| (n >>> 12), 128 ||| ((n >>> 6) &&& 63), 128 ||| (n &&& 63)]
  else
    [240 ||| (n >>> 18), 128 ||| ((n >>> 12) &&& 63), 128 ||| ((n >>> 6) &&& 63),
      128 ||| (n &&& 63)]

/-- UTF-8 bytes of a character sequence. -/
def utf8Bytes : List Char → List Nat
  | [] => []
  | c :: cs => utf8EncodeCharNat c.toNat ++ utf8Bytes cs

/-- Big-endian byte expansion of `n` on `k` bytes. -/
def bytesBE (k n : Nat) : List Nat :=
  (List.range k).map (fun i => (n >>> (8 * (k - 1 - i))) % 256)

/-- SHA-256 message padding: append `0x80`, zero bytes up to 56 mod 64,
then the 8-byte big-endian bit length. -/
def padMessage (msg : List Nat) : List Nat :=
  let zeros := (120 - ((msg.length + 1) % 64)) % 64
  msg ++ [128] ++ List.replicate zeros 0 ++ bytesBE 8 (msg.length * 8)

/-- Group bytes into big-endian 32-bit words. -/
def toWords : List Nat → List Nat
  | b0 :: b1 :: b2 :: b3 :: rest =>
    (((b0 * 256 + b1) * 256 + b2) * 256 + b3) :: toWords rest
  | _ => []

/-- The 64 SHA-256 round constants. -/
def sha256K : List Nat :=
  [1116352408, 1899447441, 3049323471, 3921009573, 961987163,
   1508970993, 2453635748, 2870763221, 3624381080, 310598401,
   607225278, 1426881987, 1925078388, 2162078206, 2614888103,
   3248222580, 3835390401, 4022224774, 264347078, 604807628,
   770255983, 1249150122, 1555081692, 1996064986, 2554220882,
   2821834349, 2952996808, 3210313671, 3336571891, 3584528711,
   113926993, 338241895, 666307205, 773529912, 1294757372,
   1396182291, 1695183700, 1986661051, 2177026350, 2456956037,
   2730485921, 2820302411, 3259730800, 3345764771, 3516065817,
   3600352804, 4094571909, 275423344, 430227734, 506948616,
   659060556, 883997877, 958139571, 1322822218, 1537002063,
   1747873779, 1955562222, 2024104815, 2227730452, 2361852424,
   2428436474, 2756734187, 3204031479, 3329325298]

/-- The eight 32-bit words of SHA-256 working state. -/
structure Hash8 where
  a : Nat
  b : Nat
  c : Nat
  d : Nat
  e : Nat
  f : Nat
  g : Nat
  h : Nat
deriving Repr

/-- SHA-256 initial hash value. -/
def sha256init : Hash8 :=
  ⟨1779033703, 3144134277, 1013904242, 2773480762,
    1359893119, 2600822924, 528734635, 1541459225⟩

/-- SHA-256 function Σ0. -/
def bigSigma0 (x : Nat) : Nat := rotr32 2 x ^^^ rotr32 13 x ^^^ rotr32 22 x

/-- SHA-256 function Σ1. -/
def bigSigma1 (x : Nat) : Nat := rotr32 6 x ^^^ rotr32 11 x ^^^ rotr32 25 x

/-- SHA-256 function σ0. -/
def smallSigma0 (x : Nat) : Nat := rotr32 7 x ^^^ rotr32 18 x ^^^ (x >>> 3)

/-- SHA-256 function σ1. -/
def smallSigma1 (x : Nat) : Nat := rotr32 17 x ^^^ rotr32 19 x ^^^ (x >>> 10)

/-- SHA-256 choice function. -/
def chFn (x y z : Nat) : Nat := (x &&& y) ^^^ ((x ^^^ 4294967295) &&& z)

/-- SHA-256 majority function. -/
def majFn (x y z : Nat) : Nat := (x &&& y) ^^^ (x &&& z) ^^^ (y &&& z)

/-- Append the next word of the SHA-256 message schedule. -/
def scheduleStep (ws : List Nat) : List Nat :=
  let n := ws.length
  ws ++ [w32 (ws.getD (n - 16) 0 + smallSigma0 (ws.getD (n - 15) 0) +
    ws.getD (n - 7) 0 + smallSigma1 (ws.getD (n - 2) 0))]

/-- Iterate the schedule extension. -/
def extendSchedule : Nat → List Nat → List Nat
  | 0, ws => ws
  | k + 1, ws => extendSchedule k (scheduleStep ws)

/-- One SHA-256 compression round with round constant and schedule word `kw`. -/
def compressRound (st : Hash8) (kw : Nat × Nat) : Hash8 :=
  let t1 := w32 (st.h + bigSigma1 st.e + chFn st.e st.f st.g + kw.1 + kw.2)
  let t2 := w32 (bigSigma0 st.a + majFn st.a st.b st.c)
  ⟨w32 (t1 + t2), st.a, st.b, st.c, w32 (st.d + t1), st.e, st.f, st.g⟩

/-- Compress one 16-word chunk into the running hash state. -/
def processChunk (st : Hash8) (chunk : List Nat) : Hash8 :=
  let ws := extendSchedule 48 chunk
  let r := (sha256K.zip ws).foldl compressRound st
  ⟨w32 (st.a + r.a), w32 (st.b + r.b), w32 (st.c + r.c), w32 (st.d + r.d),
   w32 (st.e + r.e), w32 (st.f + r.f), w32 (st.g + r.g), w32 (st.h + r.h)⟩

/-- Fold the compression function over all 16-word chunks. -/
def processChunks (st : Hash8) : List Nat → Hash8
  | w0 :: w1 :: w2 :: w3 :: w4 :: w5 :: w6 :: w7 :: w8 :: w9 :: w10 :: w11 ::
      w12 :: w13 :: w14 :: w15 :: rest =>
    processChunks
      (processChunk st
        [w0, w1, w2, w3, w4, w5, w6, w7, w8, w9, w10, w11, w12, w13, w14, w15])
      rest
  | _ => st

/-- Lowercase hexadecimal digit. -/
def hexDigit (n : Nat) : Char := if n < 10 then Char.ofNat (48 + n) else Char.ofNat (87 + n)

/-- Lowercase hexadecimal rendering of a 32-bit word on 8 digits. -/
def hex8 (n : Nat) : String :=
  String.mk ((List.range 8).map (fun i => hexDigit ((n >>> (4 * (7 - i))) % 16)))

/-- Hex-encoded SHA-256 digest of a string, embedding
`createHash('sha256').update(text).digest('hex')`. -/
def sha256hex (s : String) : String :=
  let final := processChunks sha256init (toWords (padMessage (utf8Bytes s.data)))
  hex8 final.a ++ hex8 final.b ++ hex8 final.c ++ hex8 final.d ++
    hex8 final.e ++ hex8 final.f ++ hex8 final.g ++ hex8 final.h

/-- Embedding of `TranslationRepository.generateCacheKey`:
`` `${this.cacheKeyPrefix}:${type}:${textHash}` `` with the field
holding `'translation'`, where `ttype` is the string value of the
`TranslationType` enum member (`'shakespeare'` or `'yoda'`). -/
def generateCacheKey (text ttype : String) : String :=
  "translation:" ++ ttype ++ ":" ++ sha256hex text

/-- Embedding of JavaScript `name.toLowerCase()`: lowercase each
character. -/
def toLowerString (s : String) : String := String.mk (s.data.map Char.toLower)

/-- Embedding of the species cache key computed by
`PokemonRepository.getPokemonSpecies`:
`` `${this.cacheKeyPrefix}:${normalizedName}` `` with the field holding
`'pokemon:species'` and `normalizedName = name.toLowerCase()`. -/
def speciesCacheKey (name : String) : String :=
  "pokemon:species:" ++ toLowerString name

/-- JavaScript truthiness of a `string | null` value: `null` and the
empty string are falsy, every other string is truthy. -/
def truthyString : Option String → Bool
  | none => false
  | some s => !(s == "")

/-- Trace of one `TranslationRepository.translate` call: the returned
value (the method returns `string | null` and never throws), the number
of upstream HTTP invocations performed, and the cache writes attempted. -/
structure TranslateTrace where
  result : Option String
  invocations : Nat
  cacheWrites : List (String × String)
deriving DecidableEq, Repr

/-- Embedding of `TranslationRepository.translate`.  `store` is the
underlying cache store read behaviour per key; `upstream` gives for each
0-indexed invocation the outcome of the POST to the translation API,
where a successful response carries `response.data.contents.translated`
as `some text`, or `none` when the success payload is malformed (so that
reading `contents.translated` throws inside the `try` block).

Control flow from the source: compute the key; read through the cache
wrapper; if the cached value is truthy return it; otherwise run the call
under `withExponentialBackoff` with `{maxAttempts: 3, baseDelay: 1000,
maxDelay: 10000}`, on success write the translated text to the cache
(ttl 0) and return it; any error thrown inside the `try` block is caught,
logged, and turned into `null`. -/
def translate (store : String → Except CacheErr (Option String))
    (upstream : Nat → Except UpstreamError (Option String))
    (text ttype : String) : TranslateTrace :=
  let cacheKey := generateCacheKey text ttype
  let cached := (cacheWrapperGet (store cacheKey)).value
  if truthyString cached then ⟨cached, 0, []⟩
  else
    let attempt := withExponentialBackoff upstream 3 1000 10000
    match attempt.result with
    | Except.ok (some translatedText) =>
      ⟨some translatedText, attempt.invocations, [(cacheKey, translatedText)]⟩
    | Except.ok none => ⟨none, attempt.invocations, []⟩
    | Except.error _ => ⟨none, attempt.invocations, []⟩

/-- Outcome of `PokemonRepository.getPokemonSpecies`: a returned species
payload, a thrown `NotFoundException` for the given name, or an
unchanged rethrown upstream error. -/
inductive SpeciesResult (σ : Type) where
  | ok (data : σ)
  | notFoundErr (name : String)
  | thrown (e : Option UpstreamError)
deriving Repr

/-- Trace of one `PokemonRepository.getPokemonSpecies` call. -/
structure SpeciesTrace (σ : Type) where
  result : SpeciesResult σ
  invocations : Nat
  cacheWrites : List (String × σ)

/-- Embedding of the caught-error test
`error instanceof AxiosError && error.response?.status === 404`, applied
to the value thrown by the retry loop. -/
def axiosStatus404 : Option UpstreamError → Bool
  | some (UpstreamError.http status) => status == 404
  | _ => false

/-- Embedding of `PokemonRepository.getPokemonSpecies`.  `σ` is the type
of the upstream species payload (`response.data`); a cached payload is an
object and therefore always truthy.

Control flow from the source: lowercase the name; build the cache key;
read through the cache wrapper and return a truthy cached value;
otherwise run the GET under `withExponentialBackoff` with
`{maxAttempts: 3, baseDelay: 1000, maxDelay: 10000}`; on success write
the payload to the cache (ttl 0) and return it; on a caught error, throw
`NotFoundException` when it is an `AxiosError` whose response status is
404, and rethrow it unchanged otherwise. -/
def getPokemonSpecies (store : String → Except CacheErr (Option σ))
    (upstream : Nat → Except UpstreamError σ) (name : String) : SpeciesTrace σ :=
  let cacheKey := "pokemon:species:" ++ toLowerString name
  let cached := (cacheWrapperGet (store cacheKey)).value
  match cached with
  | some data => ⟨SpeciesResult.ok data, 0, []⟩
  | none =>
    let attempt := withExponentialBackoff upstream 3 1000 10000
    match attempt.result with
    | Except.ok data => ⟨SpeciesResult.ok data, attempt.invocations, [(cacheKey, data)]⟩
    | Except.error e =>
      if axiosStatus404 e then ⟨SpeciesResult.notFoundErr name, attempt.invocations, []⟩
      else ⟨SpeciesResult.thrown e, attempt.invocations, []⟩

/-- The `language` field of a flavor text entry (`{ name: string }`). -/
structure LanguageRef where
  name : String
deriving DecidableEq, Repr

/-- One element of `flavor_text_entries` in the upstream species payload. -/
structure FlavorTextEntry where
  flavor_text : String
  language : LanguageRef
deriving DecidableEq, Repr

/-- The character replacement performed by `.replace(/[\n\f]/g, ' ')`:
each newline or form feed becomes a single space. -/
def replaceNlFf (c : Char) : Char :=
  if c == '\n' || c == Char.ofNat 12 then ' ' else c

/-- Character-wise string map (the global regex replacement applies
`replaceNlFf` to every character). -/
def mapString (f : Char → Char) (s : String) : String := String.mk (s.data.map f)

/-- Embedding of `PokemonService.extractEnglishDescription`: find the
first entry whose `language.name` is `"en"`; if none exists return the
literal `"No description available."`; otherwise return its
`flavor_text` with newlines and form feeds replaced by spaces. -/
def extractEnglishDescription (entries : List FlavorTextEntry) : String :=
  match entries.find? (fun entry => entry.language.name == "en") with
  | none => "No description available."
  | some entry => mapString replaceNlFf entry.flavor_text

/-- Concrete operation for witnesses: fails with a retryable 503 on its
first two invocations, then succeeds with the value 42. -/
def opRetryTwiceThenOk : Nat → Except UpstreamError Nat :=
  fun j => if j < 2 then Except.error (UpstreamError.http 503) else Except.ok 42

/-- Concrete operation for witnesses: every invocation fails with a
retryable 503 (payload type of the translation call). -/
def opAlways503 : Nat → Except UpstreamError (Option String) :=
  fun _ => Except.error (UpstreamError.http 503)

/-- Concrete operation for witnesses: every invocation fails with a
non-retryable 404 (payload type of the species call). -/
def opAlways404 : Nat → Except UpstreamError Nat :=
  fun _ => Except.error (UpstreamError.http 404)

/-- Concrete cache store for witnesses: every read misses. -/
def storeMissStr : String → Except CacheErr (Option String) :=
  fun _ => Except.ok none

/-- Concrete cache store for witnesses: every read misses (Nat payload). -/
def storeMissNat : String → Except CacheErr (Option Nat) :=
  fun _ => Except.ok none

/-- Concrete cache store for witnesses: every read returns the cached
empty string. -/
def storeEmptyStr : String → Except CacheErr (Option String) :=
  fun _ => Except.ok (some "")

/-- Concrete operation for witnesses: every invocation succeeds with an
empty translated text. -/
def opOkEmpty : Nat → Except UpstreamError (Option String) :=
  fun _ => Except.ok (some "")

/-! ### Lemmas about the retry loop -/

theorem backoffLoop_ok (fn : Nat → Except UpstreamError α) (b m r attempt : Nat)
    (le : Option UpstreamError) (v : α) (h : fn attempt = Except.ok v) :
    backoffLoop fn b m (r + 1) attempt le = ⟨Except.ok v, 1, []⟩ := by
  simp [backoffLoop, h]

theorem backoffLoop_nonretry (fn : Nat → Except UpstreamError α) (b m r attempt : Nat)
    (le : Option UpstreamError) (e : UpstreamError) (h : fn attempt = Except.error e)
    (hre : shouldRetry e = false) :
    backoffLoop fn b m (r + 1) attempt le = ⟨Except.error (some e), 1, []⟩ := by
  simp [backoffLoop, h, hre]

theorem backoffLoop_retry_step (fn : Nat → Except UpstreamError α) (b m r attempt : Nat)
    (le : Option UpstreamError) (e : UpstreamError) (h : fn attempt = Except.error e)
    (hre : shouldRetry e = true) :
    backoffLoop fn b m (r + 2) attempt le =
      ⟨(backoffLoop fn b m (r + 1) (attempt + 1) (some e)).result,
        (backoffLoop fn b m (r + 1) (attempt + 1) (some e)).invocations + 1,
        calculateDelay attempt b m :: (backoffLoop fn b m (r + 1) (attempt + 1) (some e)).delays⟩ := by
  simp [backoffLoop, h, hre]

theorem backoffLoop_retry_last (fn : Nat → Except UpstreamError α) (b m attempt : Nat)
    (le : Option UpstreamError) (e : UpstreamError) (h : fn attempt = Except.error e)
    (hre : shouldRetry e = true) :
    backoffLoop fn b m 1 attempt le = ⟨Except.error (some e), 1, []⟩ := by
  simp [backoffLoop, h, hre]

/-- If the operation fails retryably on the `k` invocations starting at
`attempt` and succeeds on the next one, and at least `k + 1` loop
iterations remain, the loop returns that success after `k + 1`
invocations from this point. -/
theorem backoff_first_ok (fn : Nat → Except UpstreamError α) (b m k : Nat) :
    ∀ (attempt r : Nat) (le : Option UpstreamError) (v : α),
      (∀ j, j < k → ∃ e, fn (attempt + j) = Except.error e ∧ shouldRetry e = true) →
      fn (attempt + k) = Except.ok v → k ≤ r →
      (backoffLoop fn b m (r + 1) attempt le).result = Except.ok v ∧
      (backoffLoop fn b m (r + 1) attempt le).invocations = k + 1 := by
  induction k with
  | zero =>
    intro attempt r le v _ hok _
    rw [backoffLoop_ok fn b m r attempt le v (by simpa using hok)]
    exact ⟨rfl, rfl⟩
  | succ k ih =>
    intro attempt r le v hfail hok hkr
    obtain ⟨e, he, hre⟩ := hfail 0 (Nat.succ_pos k)
    obtain ⟨r', rfl⟩ : ∃ r', r = r' + 1 := ⟨r - 1, by omega⟩
    rw [backoffLoop_retry_step fn b m r' attempt le e (by simpa using he) hre]
    have hmain := ih (attempt + 1) r' (some e) v
      (fun j hj => by
        have := hfail (j + 1) (by omega)
        simpa [Nat.add_assoc, Nat.add_comm 1 j] using this)
      (by
        have : attempt + 1 + k = attempt + (k + 1) := by omega
        rw [this]; exact hok)
      (by omega)
    exact ⟨hmain.1, by simp [hmain.2]⟩

/-- If the operation fails retryably on the `k` invocations starting at
`attempt` and then fails non-retryably, and at least `k + 1` loop
iterations remain, the loop rethrows that failure after `k + 1`
invocations from this point. -/
theorem backoff_first_nonretry (fn : Nat → Except UpstreamError α) (b m k : Nat) :
    ∀ (attempt r : Nat) (le : Option UpstreamError) (e : UpstreamError),
      (∀ j, j < k → ∃ e2, fn (attempt + j) = Except.error e2 ∧ shouldRetry e2 = true) →
      fn (attempt + k) = Except.error e → shouldRetry e = false → k ≤ r →
      (backoffLoop fn b m (r + 1) attempt le).result = Except.error (some e) ∧
      (backoffLoop fn b m (r + 1) attempt le).invocations = k + 1 := by
  induction k with
  | zero =>
    intro attempt r le e _ herr hre _
    rw [backoffLoop_nonretry fn b m r attempt le e (by simpa using herr) hre]
    exact ⟨rfl, rfl⟩
  | succ k ih =>
    intro attempt r le e hfail herr hre hkr
    obtain ⟨e0, he0, hre0⟩ := hfail 0 (Nat.succ_pos k)
    obtain ⟨r', rfl⟩ : ∃ r', r = r' + 1 := ⟨r - 1, by omega⟩
    rw [backoffLoop_retry_step fn b m r' attempt le e0 (by simpa using he0) hre0]
    have hmain := ih (attempt + 1) r' (some e0) e
      (fun j hj => by
        have := hfail (j + 1) (by omega)
        simpa [Nat.add_assoc, Nat.add_comm 1 j] using this)
      (by
        have : attempt + 1 + k = attempt + (k + 1) := by omega
        rw [this]; exact herr)
      hre (by omega)
    exact ⟨hmain.1, by simp [hmain.2]⟩

/-- If the operation fails retryably on all of the `r + 1` remaining
invocations, the loop performs them all, rethrows the final failure, and
waits only between consecutive attempts (`r` delays, none after the
last). -/
theorem backoff_all_retry (fn : Nat → Except UpstreamError α) (b m r : Nat) :
    ∀ (attempt : Nat) (le : Option UpstreamError),
      (∀ j, j ≤ r → ∃ e, fn (attempt + j) = Except.error e ∧ shouldRetry e = true) →
      ∃ e, fn (attempt + r) = Except.error e ∧
        backoffLoop fn b m (r + 1) attempt le =
          ⟨Except.error (some e), r + 1,
            (List.range r).map (fun j => calculateDelay (attempt + j) b m)⟩ := by
  induction r with
  | zero =>
    intro attempt le hfail
    obtain ⟨e, he, hre⟩ := hfail 0 (Nat.le_refl 0)
    exact ⟨e, he, by rw [backoffLoop_retry_last fn b m attempt le e (by simpa using he) hre]; simp⟩
  | succ r ih =>
    intro attempt le hfail
    obtain ⟨e0, he0, hre0⟩ := hfail 0 (Nat.zero_le _)
    obtain ⟨e, he, heq⟩ := ih (attempt + 1) (some e0)
      (fun j hj => by
        have := hfail (j + 1) (by omega)
        simpa [Nat.add_assoc, Nat.add_comm 1 j] using this)
    refine ⟨e, by
      have : attempt + 1 + r = attempt + (r + 1) := by omega
      rw [this] at he; exact he, ?_⟩
    rw [backoffLoop_retry_step fn b m r attempt le e0 (by simpa using he0) hre0, heq]
    refine congrArg₂ (BackoffTrace.mk (Except.error (some e))) rfl ?_
    rw [List.range_succ_eq_map]
    simp only [List.map_cons, List.map_map, Nat.add_zero]
    refine congrArg₂ List.cons rfl ?_
    refine List.map_congr_left (fun j _ => ?_)
    have : attempt + 1 + j = attempt + (j + 1) := by omega
    simp [Function.comp, this]

/-- C1: for every operation and configuration with `maxAttempts ≥ 1`,
`withExponentialBackoff` returns the result of the first successful
invocation (after `k` retryable failures it has performed `k + 1`
invocations); a non-retryable failure is propagated immediately after the
invocation that produced it (`k + 1` invocations after `k` retryable
failures, hence exactly one invocation for an operation that always
fails non-retryably, the case `k = 0`); on persistently retryable
failures the operation is invoked exactly `maxAttempts` times, the final
failure is propagated, and only `maxAttempts - 1` delays are performed,
none after the final attempt. -/
theorem c1_retry_executor_semantics {α : Type} (fn : Nat → Except UpstreamError α)
    (maxAttempts baseDelay maxDelay : Nat) (hmax : 1 ≤ maxAttempts) :
    (∀ k v, k < maxAttempts →
      (∀ j, j < k → ∃ e, fn j = Except.error e ∧ shouldRetry e = true) →
      fn k = Except.ok v →
      (withExponentialBackoff fn maxAttempts baseDelay maxDelay).result = Except.ok v ∧
      (withExponentialBackoff fn maxAttempts baseDelay maxDelay).invocations = k + 1) ∧
    (∀ k e, k < maxAttempts →
      (∀ j, j < k → ∃ e2, fn j = Except.error e2 ∧ shouldRetry e2 = true) →
      fn k = Except.error e → shouldRetry e = false →
      (withExponentialBackoff fn maxAttempts baseDelay maxDelay).result =
        Except.error (some e) ∧
      (withExponentialBackoff fn maxAttempts baseDelay maxDelay).invocations = k + 1) ∧
    ((∀ j, j < maxAttempts → ∃ e, fn j = Except.error e ∧ shouldRetry e = true) →
      ∃ e, fn (maxAttempts - 1) = Except.error e ∧
        withExponentialBackoff fn maxAttempts baseDelay maxDelay =
          ⟨Except.error (some e), maxAttempts,
            (List.range (maxAttempts - 1)).map
              (fun i => calculateDelay i baseDelay maxDelay)⟩) := by
  obtain ⟨M, rfl⟩ : ∃ M, maxAttempts = M + 1 := ⟨maxAttempts - 1, by omega⟩
  refine ⟨?_, ?_, ?_⟩
  · intro k v hk hfail hok
    exact backoff_first_ok fn baseDelay maxDelay k 0 M none v
      (fun j hj => by simpa using hfail j hj) (by simpa using hok) (by omega)
  · intro k e hk hfail herr hre
    exact backoff_first_nonretry fn baseDelay maxDelay k 0 M none e
      (fun j hj => by simpa using hfail j hj) (by simpa using herr) hre (by omega)
  · intro hfail
    obtain ⟨e, he, heq⟩ := backoff_all_retry fn baseDelay maxDelay M 0 none
      (fun j hj => by simpa using hfail j (by omega))
    refine ⟨e, by simpa using he, ?_⟩
    simpa [withExponentialBackoff] using heq

/-- Witness for C1: the operation failing with a retryable 503 on its
first two invocations and succeeding with 42 on the third, run with
`maxAttempts = 3`, returns 42 and is invoked exactly 3 times. -/
theorem c1_retry_executor_semantics_witness :
    1 ≤ 3 ∧
      (withExponentialBackoff opRetryTwiceThenOk 3 1000 10000).result = Except.ok 42 ∧
      (withExponentialBackoff opRetryTwiceThenOk 3 1000 10000).invocations = 3 :=
  ⟨by decide,
    ((c1_retry_executor_semantics opRetryTwiceThenOk 3 1000 10000 (by decide)).1 2 42
      (by decide)
      (fun j hj => ⟨UpstreamError.http 503, by interval_cases j <;> rfl, rfl⟩)
      rfl).1,
    ((c1_retry_executor_semantics opRetryTwiceThenOk 3 1000 10000 (by decide)).1 2 42
      (by decide)
      (fun j hj => ⟨UpstreamError.http 503, by interval_cases j <;> rfl, rfl⟩)
      rfl).2⟩

/-- C2: `shouldRetry` returns true iff the error carries an HTTP
response status that is exactly 429 or lies in `[500, 599]`; in
particular it is true for 429, 500, 502, 503, 599, false for 200, 400,
401, 403, 404, 422, and false for errors carrying no status (a
connectivity error or a non-Axios error). -/
theorem c2_shouldRetry_characterization :
    (∀ e : UpstreamError, shouldRetry e = true ↔
      ∃ s, e = UpstreamError.http s ∧ (s = 429 ∨ (500 ≤ s ∧ s ≤ 599))) ∧
    (shouldRetry (UpstreamError.http 429) = true ∧
      shouldRetry (UpstreamError.http 500) = true ∧
      shouldRetry (UpstreamError.http 502) = true ∧
      shouldRetry (UpstreamError.http 503) = true ∧
      shouldRetry (UpstreamError.http 599) = true) ∧
    (shouldRetry (UpstreamError.http 200) = false ∧
      shouldRetry (UpstreamError.http 400) = false ∧
      shouldRetry (UpstreamError.http 401) = false ∧
      shouldRetry (UpstreamError.http 403) = false ∧
      shouldRetry (UpstreamError.http 404) = false ∧
      shouldRetry (UpstreamError.http 422) = false) ∧
    shouldRetry UpstreamError.network = false ∧
    shouldRetry UpstreamError.other = false := by
  refine ⟨?_, by decide, by decide, rfl, rfl⟩
  intro e
  cases e with
  | http s =>
    simp only [shouldRetry, Bool.or_eq_true, Bool.and_eq_true, beq_iff_eq,
      decide_eq_true_eq]
    constructor
    · intro h
      exact ⟨s, rfl, by omega⟩
    · rintro ⟨s2, heq, h⟩
      cases heq
      omega
  | network => simp [shouldRetry]
  | other => simp [shouldRetry]

/-- C3: `calculateDelay` computes `min(baseDelay * 2 ^ i, maxDelay)` for
the 0-indexed attempt `i`; for `baseDelay = 1000` and
`maxDelay = 10000` the delays for `i = 0, 1, 2, 3, 4, 5` are
1000, 2000, 4000, 8000, 10000, 10000, and the delay is capped at 10000
for every index `i ≥ 4`. -/
theorem c3_calculateDelay_schedule (i baseDelay maxDelay : Nat) :
    calculateDelay i baseDelay maxDelay = min (baseDelay * 2 ^ i) maxDelay ∧
    (calculateDelay 0 1000 10000 = 1000 ∧ calculateDelay 1 1000 10000 = 2000 ∧
      calculateDelay 2 1000 10000 = 4000 ∧ calculateDelay 3 1000 10000 = 8000 ∧
      calculateDelay 4 1000 10000 = 10000 ∧ calculateDelay 5 1000 10000 = 10000) ∧
    (4 ≤ i → calculateDelay i 1000 10000 = 10000) := by
  refine ⟨rfl, by decide, ?_⟩
  intro h
  have h16 : 16 ≤ 2 ^ i :=
    calc 16 = 2 ^ 4 := by decide
    _ ≤ 2 ^ i := Nat.pow_le_pow_right (by decide) h
  have h2 : 10000 ≤ 1000 * 2 ^ i := by
    generalize 2 ^ i = x at h16
    omega
  simp only [calculateDelay]
  exact min_eq_right h2

/-- Witness for C3: the cap applies at the concrete index 5. -/
theorem c3_calculateDelay_schedule_witness :
    4 ≤ 5 ∧ calculateDelay 5 1000 10000 = 10000 :=
  ⟨by decide, (c3_calculateDelay_schedule 5 1000 10000).2.2 (by decide)⟩

/-- C4: `CacheWrapperService.get` and `set` never propagate a failure of
the underlying store: `get` returns the stored value when the store read
succeeds and returns absent with a logged warning when it fails, and
`set` returns normally (logging a warning on store failure) — both
methods are, by their embedded types, total and throw-free for every
key, value and ttl. -/
theorem c4_cache_wrapper_never_throws {α : Type} (store : Except CacheErr (Option α))
    (wstore : α → Nat → Except CacheErr Unit) (value : α) (ttl : Nat) :
    (∀ v, store = Except.ok v → cacheWrapperGet store = ⟨v, false⟩) ∧
    (∀ err, store = Except.error err → cacheWrapperGet store = ⟨none, true⟩) ∧
    (wstore value ttl = Except.ok () → cacheWrapperSet wstore value ttl = ⟨false⟩) ∧
    (∀ err, wstore value ttl = Except.error err →
      cacheWrapperSet wstore value ttl = ⟨true⟩) := by
  refine ⟨fun v h => ?_, fun err h => ?_, fun h => ?_, fun err h => ?_⟩ <;>
    simp [cacheWrapperGet, cacheWrapperSet, h]

/-- Witness for C4: a store whose read rejects yields absent plus a
warning, and a store whose write rejects returns normally with a
warning. -/
theorem c4_cache_wrapper_never_throws_witness :
    cacheWrapperGet (Except.error (CacheErr.failure "cache down") :
        Except CacheErr (Option Nat)) = ⟨none, true⟩ ∧
    cacheWrapperSet (fun (_ : Nat) (_ : Nat) => Except.error (CacheErr.failure "cache down"))
      7 0 = ⟨true⟩ :=
  ⟨(c4_cache_wrapper_never_throws (Except.error (CacheErr.failure "cache down"))
      (fun _ _ => Except.error (CacheErr.failure "cache down")) 7 0).2.1
      (CacheErr.failure "cache down") rfl,
    (c4_cache_wrapper_never_throws (Except.error (CacheErr.failure "cache down"))
      (fun _ _ => Except.error (CacheErr.failure "cache down")) 7 0).2.2.2
      (CacheErr.failure "cache down") rfl⟩

/-- C5: `TranslationRepository.translate` never raises to its caller (its
embedded result is a plain trace with an `Option String` result): on any
upstream failure propagated out of the retry loop it returns absent, on a
malformed success payload it returns absent, and when the upstream call
exhausts all three attempts on a 503 it returns absent after exactly 3
invocations and writes nothing to the cache. -/
theorem c5_translate_total_absence (store : String → Except CacheErr (Option String))
    (upstream : Nat → Except UpstreamError (Option String)) (text ttype : String)
    (hmiss : truthyString ((cacheWrapperGet (store (generateCacheKey text ttype))).value)
      = false) :
    (∀ oe, (withExponentialBackoff upstream 3 1000 10000).result = Except.error oe →
      (translate store upstream text ttype).result = none) ∧
    ((withExponentialBackoff upstream 3 1000 10000).result = Except.ok none →
      (translate store upstream text ttype).result = none) ∧
    ((∀ i, upstream i = Except.error (UpstreamError.http 503)) →
      translate store upstream text ttype = ⟨none, 3, []⟩) := by
  refine ⟨fun oe hbo => ?_, fun hbo => ?_, fun hup => ?_⟩
  · simp [translate, hmiss, hbo]
  · simp [translate, hmiss, hbo]
  · obtain ⟨e, he, heq⟩ := backoff_all_retry upstream 1000 10000 2 0 none
      (fun j _ => ⟨UpstreamError.http 503, hup _, rfl⟩)
    have he503 : e = UpstreamError.http 503 := by
      have h2 := hup 2
      rw [show (0 + 2 : Nat) = 2 from rfl, h2] at he
      exact (Except.error.inj he).symm
    subst he503
    have hbo : withExponentialBackoff upstream 3 1000 10000 =
        ⟨Except.error (some (UpstreamError.http 503)), 3,
          [calculateDelay 0 1000 10000, calculateDelay 1 1000 10000]⟩ := by
      rw [withExponentialBackoff, show (3 : Nat) = 2 + 1 from rfl, heq]
      rfl
    simp [translate, hmiss, hbo]

/-- Witness for C5: with an empty cache and an upstream that always
fails with 503, `translate` returns absent after 3 invocations and no
cache write. -/
theorem c5_translate_total_absence_witness :
    translate storeMissStr opAlways503 "Hello" "yoda" = ⟨none, 3, []⟩ :=
  (c5_translate_total_absence storeMissStr opAlways503 "Hello" "yoda" rfl).2.2
    (fun _ => rfl)

/-- `axiosStatus404` holds of a thrown error value exactly when it is an
HTTP error with status 404. -/
theorem axiosStatus404_some_iff (e : UpstreamError) :
    axiosStatus404 (some e) = true ↔ e = UpstreamError.http 404 := by
  cases e with
  | http s => simp [axiosStatus404]
  | network => simp [axiosStatus404]
  | other => simp [axiosStatus404]

/-- On a cache miss followed by an upstream failure,
`getPokemonSpecies` maps the thrown value through the 404 test. -/
theorem getPokemonSpecies_miss_error {σ : Type}
    (store : String → Except CacheErr (Option σ))
    (upstream : Nat → Except UpstreamError σ) (name : String)
    (oe : Option UpstreamError)
    (hmiss : (cacheWrapperGet (store ("pokemon:species:" ++ toLowerString name))).value = none)
    (hbo : (withExponentialBackoff upstream 3 1000 10000).result = Except.error oe) :
    getPokemonSpecies store upstream name =
      if axiosStatus404 oe then
        ⟨SpeciesResult.notFoundErr name,
          (withExponentialBackoff upstream 3 1000 10000).invocations, []⟩
      else
        ⟨SpeciesResult.thrown oe,
          (withExponentialBackoff upstream 3 1000 10000).invocations, []⟩ := by
  simp only [getPokemonSpecies, hmiss, hbo]

/-- C6: on a cache miss, when the upstream species request ultimately
fails, `getPokemonSpecies` throws the domain-level `NotFoundException`
exactly when the propagated failure carries HTTP status 404 (a status
that `shouldRetry` never retries), and rethrows every other failure
unchanged; an upstream that fails with 404 on its first invocation is
invoked exactly once. -/
theorem c6_species_notfound_mapping {σ : Type}
    (store : String → Except CacheErr (Option σ))
    (upstream : Nat → Except UpstreamError σ) (name : String)
    (hmiss : (cacheWrapperGet (store ("pokemon:species:" ++ toLowerString name))).value = none) :
    (∀ e, (withExponentialBackoff upstream 3 1000 10000).result = Except.error (some e) →
      ((getPokemonSpecies store upstream name).result = SpeciesResult.notFoundErr name ↔
        e = UpstreamError.http 404) ∧
      (e ≠ UpstreamError.http 404 →
        (getPokemonSpecies store upstream name).result = SpeciesResult.thrown (some e))) ∧
    shouldRetry (UpstreamError.http 404) = false ∧
    (upstream 0 = Except.error (UpstreamError.http 404) →
      getPokemonSpecies store upstream name = ⟨SpeciesResult.notFoundErr name, 1, []⟩) := by
  refine ⟨fun e hbo => ?_, rfl, fun h404 => ?_⟩
  · by_cases h4 : e = UpstreamError.http 404
    · subst h4
      rw [getPokemonSpecies_miss_error store upstream name _ hmiss hbo,
        if_pos ((axiosStatus404_some_iff _).mpr rfl)]
      exact ⟨⟨fun _ => rfl, fun _ => rfl⟩, fun h => absurd rfl h⟩
    · rw [getPokemonSpecies_miss_error store upstream name _ hmiss hbo,
        if_neg (fun hc => h4 ((axiosStatus404_some_iff _).mp hc))]
      exact ⟨⟨fun h => absurd h (by simp), fun h => absurd h h4⟩, fun _ => rfl⟩
  · have hb := backoff_first_nonretry upstream 1000 10000 0 0 2 none
      (UpstreamError.http 404) (fun j hj => absurd hj (Nat.not_lt_zero j))
      (by simpa using h404) rfl (Nat.zero_le 2)
    have hbo : (withExponentialBackoff upstream 3 1000 10000).result =
        Except.error (some (UpstreamError.http 404)) := hb.1
    have hinv : (withExponentialBackoff upstream 3 1000 10000).invocations = 1 := hb.2
    rw [getPokemonSpecies_miss_error store upstream name _ hmiss hbo,
      if_pos ((axiosStatus404_some_iff _).mpr rfl), hinv]

/-- Witness for C6: an upstream that always answers 404 makes the
species lookup throw `NotFoundException` after a single invocation. -/
theorem c6_species_notfound_mapping_witness :
    getPokemonSpecies storeMissNat opAlways404 "mewtwo" =
      ⟨SpeciesResult.notFoundErr "mewtwo", 1, []⟩ :=
  (c6_species_notfound_mapping storeMissNat opAlways404 "mewtwo" rfl).2.2 rfl

/-- Counterexample to C7 as stated: the species cache key for "PIKACHU"
is "pokemon:species:pikachu" (the literal prefix in the source is
`pokemon:species`), not "species:pikachu". -/
theorem c7_cache_keys_counterexample :
    speciesCacheKey "PIKACHU" ≠ "species:pikachu" := by decide

/-- C7 amended: for every name the species cache key equals
`pokemon:species:{lowercase(name)}` — hence invariant under the input
letter case, so "PIKACHU" and "pikachu" address the same entry — and for
every source text and style the translation cache key equals
`translation:{style}:{hex-encoded SHA-256 of the text}`, a deterministic
pure function of the pair. -/
theorem c7_cache_keys (n m text ttype : String) :
    speciesCacheKey n = "pokemon:species:" ++ toLowerString n ∧
    (toLowerString n = toLowerString m → speciesCacheKey n = speciesCacheKey m) ∧
    generateCacheKey text ttype = "translation:" ++ ttype ++ ":" ++ sha256hex text := by
  refine ⟨rfl, fun h => ?_, rfl⟩
  simp [speciesCacheKey, h]

/-- Witness for C7 amended: "PIKACHU" and "pikachu" produce the same
species cache key. -/
theorem c7_cache_keys_witness :
    toLowerString "PIKACHU" = toLowerString "pikachu" ∧
    speciesCacheKey "PIKACHU" = speciesCacheKey "pikachu" :=
  ⟨by decide, (c7_cache_keys "PIKACHU" "pikachu" "" "").2.1 (by decide)⟩

/-- C8: in both lookup services a cache write is performed only after a
successful upstream call: whenever the retry loop propagates a failure
the trace contains no cache writes, and conversely a nonempty write list
implies the loop returned a success. -/
theorem c8_write_only_after_success {σ : Type}
    (storeT : String → Except CacheErr (Option String))
    (upT : Nat → Except UpstreamError (Option String)) (text ttype : String)
    (storeS : String → Except CacheErr (Option σ))
    (upS : Nat → Except UpstreamError σ) (name : String) :
    (∀ oe, (withExponentialBackoff upT 3 1000 10000).result = Except.error oe →
      (translate storeT upT text ttype).cacheWrites = []) ∧
    ((translate storeT upT text ttype).cacheWrites ≠ [] →
      ∃ t, (withExponentialBackoff upT 3 1000 10000).result = Except.ok (some t)) ∧
    (∀ oe, (withExponentialBackoff upS 3 1000 10000).result = Except.error oe →
      (getPokemonSpecies storeS upS name).cacheWrites = []) ∧
    ((getPokemonSpecies storeS upS name).cacheWrites ≠ [] →
      ∃ d, (withExponentialBackoff upS 3 1000 10000).result = Except.ok d) := by
  refine ⟨fun oe hbo => ?_, fun hw => ?_, fun oe hbo => ?_, fun hw => ?_⟩
  · by_cases htr : truthyString ((cacheWrapperGet
        (storeT (generateCacheKey text ttype))).value) = true
    · simp [translate, htr]
    · rw [Bool.not_eq_true] at htr
      simp [translate, htr, hbo]
  · by_cases htr : truthyString ((cacheWrapperGet
        (storeT (generateCacheKey text ttype))).value) = true
    · exact absurd (by simp [translate, htr]) hw
    · rw [Bool.not_eq_true] at htr
      rcases hres : (withExponentialBackoff upT 3 1000 10000).result with oe | r
      · exact absurd (by simp [translate, htr, hres]) hw
      · rcases r with _ | t
        · exact absurd (by simp [translate, htr, hres]) hw
        · exact ⟨t, rfl⟩
  · rcases hc : (cacheWrapperGet
        (storeS ("pokemon:species:" ++ toLowerString name))).value with _ | d
    · simp only [getPokemonSpecies, hc, hbo]
      split <;> rfl
    · simp [getPokemonSpecies, hc]
  · rcases hc : (cacheWrapperGet
        (storeS ("pokemon:species:" ++ toLowerString name))).value with _ | d
    · rcases hres : (withExponentialBackoff upS 3 1000 10000).result with oe | r
      · refine absurd ?_ hw
        simp only [getPokemonSpecies, hc, hres]
        split <;> rfl
      · exact ⟨r, rfl⟩
    · exact absurd (by simp [getPokemonSpecies, hc]) hw

/-- Witness for C8: with failing upstreams neither service writes to its
cache. -/
theorem c8_write_only_after_success_witness :
    (translate storeMissStr opAlways503 "Hello" "yoda").cacheWrites = [] ∧
    (getPokemonSpecies storeMissNat opAlways404 "mewtwo").cacheWrites = [] :=
  ⟨(c8_write_only_after_success storeMissStr opAlways503 "Hello" "yoda"
      storeMissNat opAlways404 "mewtwo").1 (some (UpstreamError.http 503)) rfl,
    (c8_write_only_after_success storeMissStr opAlways503 "Hello" "yoda"
      storeMissNat opAlways404 "mewtwo").2.2.1 (some (UpstreamError.http 404)) rfl⟩

/-- `find?` selects the given entry when everything before it fails the
test and the entry passes it. -/
theorem find_en_first (pre : List FlavorTextEntry) :
    ∀ (entry : FlavorTextEntry) (post : List FlavorTextEntry),
      entry.language.name = "en" → (∀ e2 ∈ pre, e2.language.name ≠ "en") →
      (pre ++ entry :: post).find? (fun e => e.language.name == "en") = some entry := by
  induction pre with
  | nil =>
    intro entry post hen _
    simp [List.find?_cons_of_pos, hen]
  | cons head tail ih =>
    intro entry post hen hpre
    rw [List.cons_append, List.find?_cons_of_neg, ih entry post hen
      (fun x hx => hpre x (List.mem_cons_of_mem _ hx))]
    simp [hpre head (List.mem_cons_self _ _)]

/-- C9: the extracted English description comes from the first entry
whose language code is "en", with each newline and form-feed character
replaced by a single space (all other characters unchanged); when no
entry has language code "en" the result is exactly the literal
"No description available.". -/
theorem c9_extract_english_description (entries pre post : List FlavorTextEntry)
    (entry : FlavorTextEntry) :
    ((∀ e2 ∈ entries, e2.language.name ≠ "en") →
      extractEnglishDescription entries = "No description available.") ∧
    (entries = pre ++ entry :: post → entry.language.name = "en" →
      (∀ e2 ∈ pre, e2.language.name ≠ "en") →
      extractEnglishDescription entries = mapString replaceNlFf entry.flavor_text) ∧
    (replaceNlFf '\n' = ' ' ∧ replaceNlFf (Char.ofNat 12) = ' ' ∧
      ∀ c, c ≠ '\n' → c ≠ Char.ofNat 12 → replaceNlFf c = c) := by
  refine ⟨fun hno => ?_, fun hsplit hen hpre => ?_, rfl, rfl, fun c h1 h2 => ?_⟩
  · have hnone : entries.find? (fun e => e.language.name == "en") = none := by
      rw [List.find?_eq_none]
      intro x hx
      simp [hno x hx]
    simp [extractEnglishDescription, hnone]
  · subst hsplit
    simp [extractEnglishDescription, find_en_first pre entry post hen hpre]
  · simp [replaceNlFf, h1, h2]

/-- Witness for C9: the spec's mewtwo example — the first (only) English
entry has its newlines replaced by spaces — and the no-English case. -/
theorem c9_extract_english_description_witness :
    extractEnglishDescription
      [⟨"Ein Pokemon.", ⟨"de"⟩⟩,
        ⟨"It was created by\na scientist...gene splicing and\nDNA engineering\nexperiments.",
          ⟨"en"⟩⟩] =
      "It was created by a scientist...gene splicing and DNA engineering experiments." ∧
    extractEnglishDescription [⟨"Ein Pokemon.", ⟨"de"⟩⟩] = "No description available." :=
  ⟨(c9_extract_english_description
      [⟨"Ein Pokemon.", ⟨"de"⟩⟩,
        ⟨"It was created by\na scientist...gene splicing and\nDNA engineering\nexperiments.",
          ⟨"en"⟩⟩]
      [⟨"Ein Pokemon.", ⟨"de"⟩⟩] []
      ⟨"It was created by\na scientist...gene splicing and\nDNA engineering\nexperiments.",
        ⟨"en"⟩⟩).2.1 rfl rfl (by decide),
    (c9_extract_english_description [⟨"Ein Pokemon.", ⟨"de"⟩⟩] [] []
      ⟨"", ⟨"en"⟩⟩).1 (by decide)⟩

/-- On the miss path `translate` performs exactly the invocations of the
retry loop. -/
theorem translate_miss_invocations
    (store : String → Except CacheErr (Option String))
    (upstream : Nat → Except UpstreamError (Option String)) (text ttype : String)
    (hmiss : truthyString ((cacheWrapperGet (store (generateCacheKey text ttype))).value)
      = false) :
    (translate store upstream text ttype).invocations =
      (withExponentialBackoff upstream 3 1000 10000).invocations := by
  simp only [translate, hmiss, Bool.false_eq_true, if_false]
  split <;> rfl

/-- The retry loop with a positive attempt budget invokes the operation
at least once. -/
theorem backoff_invocations_pos (fn : Nat → Except UpstreamError α) (b m M : Nat) :
    1 ≤ (withExponentialBackoff fn (M + 1) b m).invocations := by
  rw [withExponentialBackoff]
  rcases h : fn 0 with e | v
  · by_cases hre : shouldRetry e
    · by_cases hM : M = 0 <;> simp [backoffLoop, h, hre, hM]
    · simp [backoffLoop, h, hre]
  · simp [backoffLoop, h]

/-- C10: the cache-hit test in `translate` is JavaScript truthiness, so
a cached empty translation is treated as a miss: with the empty string
stored under the translation key, the cached value fails the truthiness
test and the upstream operation is still invoked at least once; when
that upstream call succeeds immediately with the empty translation, the
service performs exactly one network call, writes the empty string to
the cache again, and returns it — the once-cached-then-zero-network-calls
property fails for empty translated text. -/
theorem c10_falsy_cached_value_is_miss
    (store : String → Except CacheErr (Option String))
    (upstream : Nat → Except UpstreamError (Option String)) (text ttype : String)
    (hcached : store (generateCacheKey text ttype) = Except.ok (some "")) :
    truthyString ((cacheWrapperGet (store (generateCacheKey text ttype))).value) = false ∧
    1 ≤ (translate store upstream text ttype).invocations ∧
    (upstream 0 = Except.ok (some "") →
      translate store upstream text ttype =
        ⟨some "", 1, [(generateCacheKey text ttype, "")]⟩) := by
  have hmiss : truthyString ((cacheWrapperGet (store (generateCacheKey text ttype))).value)
      = false := by
    simp [hcached, cacheWrapperGet, truthyString]
  refine ⟨hmiss, ?_, fun hok => ?_⟩
  · rw [translate_miss_invocations store upstream text ttype hmiss]
    exact backoff_invocations_pos upstream 1000 10000 2
  · have hb := backoff_first_ok upstream 1000 10000 0 0 2 none (some "")
      (fun j hj => absurd hj (Nat.not_lt_zero j)) (by simpa using hok) (Nat.zero_le 2)
    have hres : (withExponentialBackoff upstream 3 1000 10000).result =
        Except.ok (some "") := hb.1
    have hinv : (withExponentialBackoff upstream 3 1000 10000).invocations = 1 := hb.2
    simp [translate, hmiss, hres, hinv]

/-- Witness for C10: a cache holding the empty translation and an
upstream returning the empty translation — one network call happens and
the empty string is re-written to the cache. -/
theorem c10_falsy_cached_value_is_miss_witness :
    translate storeEmptyStr opOkEmpty "Hello" "yoda" =
      ⟨some "", 1, [(generateCacheKey "Hello" "yoda", "")]⟩ :=
  (c10_falsy_cached_value_is_miss storeEmptyStr opOkEmpty "Hello" "yoda" rfl).2.2 rfl

end Pokedex
